import Mathlib

/-!
Verification of the batch proposal-review pipeline
(`src/app/api/review/route.ts` and `src/lib/file-parser.ts`).

The TypeScript source is shallowly embedded below.  External effects
(the PDF/DOCX text extractors, `JSON.parse`, `jsonrepair`, and the LLM
completion call) are modelled as explicit function parameters (oracles);
everything else is a direct translation of the source.
-/

namespace ProposalReview

/-- Untrusted JSON-like values, as produced by `JSON.parse` or by the
provider's pre-parsed payload.  Numbers are irrelevant to every claim and
are kept abstract as integers. -/
inductive JsValue where
  | null
  | bool (b : Bool)
  | num (n : Int)
  | str (s : String)
  | arr (xs : List JsValue)
  | obj (fields : List (String × JsValue))

/-- JS `s.trim()`: strip leading and trailing whitespace.  Implemented
structurally on the character list so it evaluates inside the kernel. -/
def jsTrim (s : String) : String :=
  String.mk (((s.data.dropWhile Char.isWhitespace).reverse.dropWhile Char.isWhitespace).reverse)

/-- JS `s.toLowerCase()` on the ASCII range (the only inputs passed to it
here are MIME types, extensions and error messages). -/
def asciiToLower (s : String) : String :=
  String.mk (s.data.map Char.toLower)

/-- JS guard `raw && typeof raw === "object"`: non-null objects, which in
JavaScript include arrays. -/
def isObjectLike : JsValue → Bool
  | .obj _ => true
  | .arr _ => true
  | _ => false

/-- Property access `value.key` on an untrusted value: `undefined` (here
`none`) unless the value is an object with that key; for duplicate keys
`JSON.parse` keeps the last binding. -/
def getField (v : JsValue) (key : String) : Option JsValue :=
  match v with
  | .obj fields => fields.foldl (fun acc kv => if kv.1 = key then some kv.2 else acc) none
  | _ => none

/-- The field's value when it is a string, `none` otherwise. -/
def getFieldStr (v : JsValue) (key : String) : Option String :=
  match getField v key with
  | some (.str s) => some s
  | _ => none

/-- `storage-keys.ts` `ProposalReviewCriterion`. The `result` union type
`"pass" | "fail"` is embedded as `String` so that membership in the enum is
a provable fact rather than a typing assumption. -/
structure ProposalReviewCriterion where
  name : String
  result : String
  explanation : String
deriving DecidableEq

/-- `storage-keys.ts` `ProposalReviewResult`. -/
structure ProposalReviewResult where
  id : String
  filename : String
  wordCount : Nat
  overallVerdict : String
  overallFeedback : String
  criteria : List ProposalReviewCriterion
  notableStrengths : List String
  recommendedImprovements : List String
deriving DecidableEq

/-- `route.ts` `ParsedProposal`. -/
structure ParsedProposal where
  id : String
  filename : String
  mimetype : String
  text : String
  wordCount : Nat
deriving DecidableEq

/-- `route.ts` `ReviewError`. -/
structure ReviewError where
  filename : String
  message : String
deriving DecidableEq

/-- `route.ts` `MAX_PROPOSALS`. -/
def MAX_PROPOSALS : Nat := 12

/-- `file-parser.ts` `MAX_UPLOAD_BYTES`. -/
def MAX_UPLOAD_BYTES : Nat := 5 * 1024 * 1024

/-- The strings mapped in `route.ts` `.map((item) => typeof item === "string"
? item.trim() : "").filter(Boolean)`, shared by `notableStrengths` and
`recommendedImprovements`. -/
def trimmedStrings (v : Option JsValue) : List String :=
  match v with
  | some (.arr xs) =>
      (xs.map (fun item => match item with | .str s => jsTrim s | _ => "")).filter
        (fun s => s ≠ "")
  | _ => []

/-- `route.ts` `normalizeCriteria`. -/
def normalizeCriteria (criteria : Option JsValue) : List ProposalReviewCriterion :=
  match criteria with
  | some (.arr items) =>
      (items.map (fun item =>
        if isObjectLike item = false then none
        else
          let name := match getField item "name" with
            | some (.str s) => jsTrim s
            | _ => "Unnamed criterion"
          let result := match getField item "result" with
            | some (.str s) => if s = "pass" then "pass" else "fail"
            | _ => "fail"
          let explanationRaw := match getField item "explanation" with
            | some (.str s) => s
            | _ => ""
          let explanation :=
            if jsTrim explanationRaw = "" then
              (if result = "pass" then "Criterion appears satisfied."
               else "Criterion appears unmet or lacks evidence.")
            else jsTrim explanationRaw
          some { name := if name = "" then "Unnamed criterion" else name
                 result := result
                 explanation := explanation })).filterMap id
  | _ => []

/-- `route.ts` `normalizeReview`. -/
def normalizeReview (raw : JsValue) (fallback : ParsedProposal) : ProposalReviewResult :=
  if isObjectLike raw = false then
    { id := fallback.id
      filename := fallback.filename
      wordCount := fallback.wordCount
      overallVerdict := "fail"
      overallFeedback := "The model returned an invalid response."
      criteria := []
      notableStrengths := []
      recommendedImprovements := ["Unable to parse review output."] }
  else
    let overallVerdict : String :=
      match getField raw "overallVerdict" with
      | some (.str s) => if s = "pass" then "pass" else "fail"
      | _ => "fail"
    let overallFeedback : String :=
      match getField raw "overallFeedback" with
      | some (.str s) =>
          if (jsTrim s).length > 0 then jsTrim s
          else if overallVerdict = "pass" then "Proposal meets rubric expectations."
          else "Proposal does not satisfy all rubric requirements."
      | _ =>
          if overallVerdict = "pass" then "Proposal meets rubric expectations."
          else "Proposal does not satisfy all rubric requirements."
    let strengths := trimmedStrings (getField raw "notableStrengths")
    let improvements := trimmedStrings (getField raw "recommendedImprovements")
    let criteria := normalizeCriteria (getField raw "criteria")
    { id := match getField raw "id" with
        | some (.str s) => if jsTrim s = "" then fallback.id else jsTrim s
        | _ => fallback.id
      filename := match getField raw "filename" with
        | some (.str s) => if jsTrim s = "" then fallback.filename else jsTrim s
        | _ => fallback.filename
      wordCount := fallback.wordCount
      overallVerdict := overallVerdict
      overallFeedback := overallFeedback
      criteria := criteria
      notableStrengths := strengths
      recommendedImprovements :=
        if improvements.length > 0 then improvements
        else [if overallVerdict = "pass" then "No immediate improvements recommended."
              else "Address the failed criteria with specific evidence."] }

/-- `text.replace(/\r\n?/g, "\n")` from `file-parser.ts` `sanitizeText`. -/
def normalizeNewlines : List Char → List Char
  | [] => []
  | '\r' :: '\n' :: rest => '\n' :: normalizeNewlines rest
  | '\r' :: rest => '\n' :: normalizeNewlines rest
  | c :: rest => c :: normalizeNewlines rest

/-- Worker for `collapseNewlines`: `run` counts the newlines already seen
in the current run; only the first two of each run are kept. -/
def collapseNewlinesAux : Nat → List Char → List Char
  | _, [] => []
  | run, c :: rest =>
      if c = '\n' then
        if run < 2 then '\n' :: collapseNewlinesAux (run + 1) rest
        else collapseNewlinesAux run rest
      else c :: collapseNewlinesAux 0 rest

/-- `text.replace(/\n{3,}/g, "\n\n")` from `file-parser.ts` `sanitizeText`:
each maximal run of three or more newlines becomes exactly two; shorter
runs stay — i.e. every run keeps its first `min run 2` newlines. -/
def collapseNewlines (cs : List Char) : List Char :=
  collapseNewlinesAux 0 cs

/-- `file-parser.ts` `sanitizeText`. -/
def sanitizeText (s : String) : String :=
  jsTrim (String.mk (collapseNewlines (normalizeNewlines s.data)))

/-- Node `path.basename` restricted to POSIX separators, as applied to ZIP
entry names and upload filenames. -/
def basenameString (s : String) : String :=
  let noTrail := (s.data.reverse.dropWhile (fun c => c = '/')).reverse
  String.mk (noTrail.reverse.takeWhile (fun c => c ≠ '/')).reverse

/-- Node `path.extname`: the suffix of the basename from its last dot,
empty when the basename has no dot or only a leading dot. -/
def extnameString (s : String) : String :=
  let base := (basenameString s).data
  let afterRev := base.reverse.takeWhile (fun c => c ≠ '.')
  if afterRev.length = base.length then ""
  else
    let dotPos := base.length - afterRev.length - 1
    if dotPos = 0 then "" else String.mk (base.drop dotPos)

/-- `route.ts` `deriveMimeFromExtension`, reading the fixed table
`EXTENSION_TO_MIME` (`.pdf` and `.docx` only). -/
def deriveMimeFromExtension (filename : String) : Option String :=
  let ext := asciiToLower (extnameString filename)
  if ext = ".pdf" then some "application/pdf"
  else if ext = ".docx" then
    some "application/vnd.openxmlformats-officedocument.wordprocessingml.document"
  else none

/-- One file buffer flowing through the pipeline: the
`{filename, buffer, mimetype}` records of `route.ts`.  Buffer bytes are
`Nat`s; only the length and identity of the bytes matter here. -/
structure FileBuffer where
  filename : String
  buffer : List Nat
  mimetype : String
deriving DecidableEq

/-- One JSZip archive entry: its full name, the `dir` flag, and its bytes. -/
structure ZipEntry where
  name : String
  dir : Bool
  content : List Nat
deriving DecidableEq

/-- `route.ts` `extractFromZip`: skip directory entries, keep entries whose
extension maps through `EXTENSION_TO_MIME`, return basename + bytes + mime. -/
def extractFromZip (entries : List ZipEntry) : List FileBuffer :=
  entries.filterMap (fun e =>
    if e.dir then none
    else
      match deriveMimeFromExtension e.name with
      | none => none
      | some m => some { filename := basenameString e.name, buffer := e.content, mimetype := m })

/-- `file-parser.ts` kinds of supported documents. -/
inductive FileKind where
  | pdf
  | docx
  | txt
deriving DecidableEq

/-- `file-parser.ts` `MIME_TO_KIND`. -/
def MIME_TO_KIND (m : String) : Option FileKind :=
  if m = "application/pdf" then some .pdf
  else if m = "application/vnd.openxmlformats-officedocument.wordprocessingml.document" then
    some .docx
  else if m = "application/octet-stream" then some .pdf
  else if m = "text/plain" then some .txt
  else none

/-- `file-parser.ts` `EXTENSION_TO_KIND`. -/
def EXTENSION_TO_KIND (e : String) : Option FileKind :=
  if e = ".pdf" then some .pdf
  else if e = ".docx" then some .docx
  else if e = ".txt" then some .txt
  else none

/-- `file-parser.ts` `detectKind`: declared MIME first, then extension. -/
def detectKind (filename mimetype : String) : Option FileKind :=
  match MIME_TO_KIND (asciiToLower mimetype) with
  | some k => some k
  | none => EXTENSION_TO_KIND (asciiToLower (extnameString filename))

/-- `file-parser.ts` `ParsedProposal` (the parser's own result record). -/
structure ParsedFileResult where
  filename : String
  mimetype : String
  text : String
deriving DecidableEq

/-- `file-parser.ts` `parseProposalFile`.  The raw text produced by the
external extractor (pdf-parse, mammoth, or UTF-8 decode) for this buffer is
passed in as `extractedRaw`; every check and transformation around it is the
source's.  Thrown `Error`s become `Except.error` of the message. -/
def parseProposalFile (extractedRaw : String) (buffer : List Nat)
    (filename mimetype : String) : Except String ParsedFileResult :=
  if buffer.length = 0 then .error "Uploaded file is empty"
  else if buffer.length > MAX_UPLOAD_BYTES then .error "File size exceeds the 5MB limit"
  else
    match detectKind filename mimetype with
    | none => .error "Unsupported file type. Upload a PDF, DOCX, or TXT file"
    | some _ =>
        let clean := sanitizeText extractedRaw
        if clean = "" then .error "No readable text found in the uploaded file"
        else .ok { filename := filename, mimetype := mimetype, text := clean }

/-- Split a character list at every character satisfying `p`, keeping the
(possibly empty) pieces between separators — the splitting underlying both
JS `split(/\s+/)` followed by `filter(Boolean)` and Lean's `String.split`. -/
def splitChars (p : Char → Bool) : List Char → List (List Char)
  | [] => [[]]
  | c :: rest =>
      if p c then [] :: splitChars p rest
      else
        match splitChars p rest with
        | piece :: pieces => (c :: piece) :: pieces
        | [] => [[c]]

/-- `route.ts` word counting in `toParsedProposal`:
`parsed.text.split(/\s+/).filter(Boolean).length` — the number of maximal
non-whitespace runs. -/
def countWords (text : String) : Nat :=
  ((splitChars (fun c => c.isWhitespace) text.data).filter (fun w => w ≠ [])).length

/-- `route.ts` `toParsedProposal`, applied to an already-parsed file. -/
def toParsedProposal (parsed : ParsedFileResult) (index : Nat) : ParsedProposal :=
  { id := "proposal-" ++ toString (index + 1)
    filename := parsed.filename
    mimetype := parsed.mimetype
    text := parsed.text
    wordCount := countWords parsed.text }

/-- JS `raw.indexOf(c)` for a one-character needle: first index or -1. -/
def jsIndexOf (s : String) (c : Char) : Int :=
  match s.data.findIdx? (fun x => x = c) with
  | some i => (i : Int)
  | none => -1

/-- JS `raw.lastIndexOf(c)` for a one-character needle: last index or -1. -/
def jsLastIndexOf (s : String) (c : Char) : Int :=
  match s.data.reverse.findIdx? (fun x => x = c) with
  | some i => ((s.data.length - 1 - i : Nat) : Int)
  | none => -1

/-- JS `raw.slice(start, stop)` for the in-range non-negative indices used
by `extractJson`. -/
def jsSlice (s : String) (start stop : Int) : String :=
  String.mk ((s.data.take stop.toNat).drop start.toNat)

/-- `Except.isOk` as a plain boolean. -/
def isOkB {α : Type} : Except String α → Bool
  | .ok _ => true
  | .error _ => false

/-- `route.ts` `extractJson`.  `JSON.parse` and `jsonrepair` are external
library functions and are taken as parameters `parse` and `repair`; a thrown
exception is an `Except.error` carrying the thrown value. -/
def extractJson (parse : String → Except String JsValue)
    (repair : String → Except String String) (raw : String) : Except String JsValue :=
  match parse raw with
  | .ok v => .ok v
  | .error primaryError =>
      match (repair raw).bind parse with
      | .ok v => .ok v
      | .error _ =>
          let start := jsIndexOf raw '{'
          let stop := jsLastIndexOf raw '}'
          if start ≠ -1 ∧ stop ≠ -1 ∧ stop > start then
            match parse (jsSlice raw start (stop + 1)) with
            | .ok v => .ok v
            | .error _ => .error primaryError
          else .error primaryError

/-- The substring from the first brace to the last brace, when the spec's
heuristic-extraction strategy is applicable. -/
def braceCandidate (raw : String) : Option String :=
  let start := jsIndexOf raw '{'
  let stop := jsLastIndexOf raw '}'
  if start ≠ -1 ∧ stop ≠ -1 ∧ stop > start then some (jsSlice raw start (stop + 1))
  else none

/-- Modelled from the spec (§4.5 parsing algorithm), for comparison with
`extractJson`: try the three strategies in order — strict parse, repair then
strict parse, strict parse of the first-`\x7b`-to-last-`\x7d` substring —
stopping at the first success; when all fail, propagate the original
(first strict-parse) error. -/
def extractJsonSpec (parse : String → Except String JsValue)
    (repair : String → Except String String) (raw : String) : Except String JsValue :=
  let strategies : List (Except String JsValue) :=
    [parse raw,
     (repair raw).bind parse,
     match braceCandidate raw with
     | some candidate => parse candidate
     | none => .error "no brace-delimited candidate"]
  match strategies.find? (fun r => isOkB r) with
  | some r => r
  | none =>
      match parse raw with
      | .error e => .error e
      | .ok v => .ok v

/-- `route.ts` per-document settle record
`{ review?: ProposalReviewResult; error?: ReviewError }`. -/
structure SettledResult where
  review : Option ProposalReviewResult := none
  error : Option ReviewError := none
deriving DecidableEq

/-- `s.includes(sub)` as in JS. -/
def strIncludes (s sub : String) : Bool :=
  (List.range (s.data.length + 1)).any (fun i => sub.data.isPrefixOf (s.data.drop i))

/-- The message rewriting in the per-document `catch` of `route.ts` `POST`:
invalid-model errors get a hint appended. -/
def rewriteModelMessage (msg : String) : String :=
  if strIncludes (asciiToLower msg) "invalid model" || strIncludes msg "not a valid model ID" then
    msg ++ ". Update OPENROUTER_REVIEW_MODEL to a supported model."
  else msg

/-- One per-document review task from `route.ts` `POST` (the body of
`reviewPromises`).  The external completion call, the empty-response
classification and the JSON extraction are abstracted into `completion`,
whose `Except.error` is the message of whatever `Error` that stage threw;
a successful stage hands its payload to `normalizeReview`, which never
fails.  The surrounding try/catch is the match. -/
def reviewOne (completion : ParsedProposal → Except String JsValue)
    (proposal : ParsedProposal) : SettledResult :=
  match completion proposal with
  | .ok payload => { review := some (normalizeReview payload proposal) }
  | .error msg =>
      { error := some { filename := proposal.filename, message := rewriteModelMessage msg } }

/-- The outcome of the `POST` handler, by response shape:
400 precondition rejections, the 500 of the outer catch, the 502
all-reviews-failed response, and the 200 `{reviews, errors}` payload. -/
inductive ReviewOutcome where
  | badRequest (message : String)
  | pipelineFailure (message : String)
  | allFailed (details : List ReviewError)
  | success (reviews : List ProposalReviewResult) (errors : List ReviewError)
deriving DecidableEq

/-- `Promise.all`: resolves with the values in positional order when all
resolve; rejects when any input rejects (the leftmost rejection is taken as
the reported reason). -/
def promiseAll {α : Type} : List (Except String α) → Except String (List α)
  | [] => .ok []
  | x :: rest =>
      match x with
      | .error e => .error e
      | .ok a =>
          match promiseAll rest with
          | .ok as => .ok (a :: as)
          | .error e => .error e

/-- Lines 373–375 of `route.ts` `POST`:
`Promise.all(collectedFiles.map((file, index) => toParsedProposal(file, index)))`.
`extractText i` is the external extractor's raw text for file `i`. -/
def parseAllFiles (extractText : Nat → String) (files : List FileBuffer) :
    Except String (List ParsedProposal) :=
  promiseAll (files.enum.map (fun p =>
    (parseProposalFile (extractText p.1) p.2.buffer p.2.filename p.2.mimetype).map
      (fun parsed => toParsedProposal parsed p.1)))

/-- Lines 454–469 of `route.ts` `POST`: fan-in over the settled results,
then the batch-level decision. -/
def aggregateSettled (settled : List SettledResult) : ReviewOutcome :=
  let reviews := (settled.map (fun r => r.review)).filterMap id
  let errors := (settled.map (fun r => r.error)).filterMap id
  if reviews.length = 0 then .allFailed errors
  else .success reviews errors

/-- `route.ts` `POST` from line 361 on: the zero-file and batch-ceiling
precondition checks, then the outer try — parse all files (one rejection
aborts into the catch, producing the 500), fan-out `reviewOne` per
proposal, fan-in and decide. -/
def postAfterCollect (extractText : Nat → String)
    (completion : ParsedProposal → Except String JsValue)
    (collectedFiles : List FileBuffer) : ReviewOutcome :=
  if collectedFiles.length = 0 then
    .badRequest "No PDF or DOCX proposals were found in the upload."
  else if collectedFiles.length > MAX_PROPOSALS then
    .badRequest ("Reduce the number of proposals. Limit is " ++ toString MAX_PROPOSALS ++ ".")
  else
    match parseAllFiles extractText collectedFiles with
    | .error msg => .pipelineFailure msg
    | .ok parsedProposals => aggregateSettled (parsedProposals.map (reviewOne completion))

/-! ## Projection lemmas for `normalizeReview` -/

theorem normalizeReview_wordCount (raw : JsValue) (fallback : ParsedProposal) :
    (normalizeReview raw fallback).wordCount = fallback.wordCount := by
  cases raw <;> rfl

theorem normalizeReview_overallVerdict (raw : JsValue) (fallback : ParsedProposal) :
    (normalizeReview raw fallback).overallVerdict =
      match getField raw "overallVerdict" with
      | some (.str s) => if s = "pass" then "pass" else "fail"
      | _ => "fail" := by
  cases raw <;> rfl

theorem normalizeReview_id (raw : JsValue) (fallback : ParsedProposal) :
    (normalizeReview raw fallback).id =
      match getField raw "id" with
      | some (.str s) => if jsTrim s = "" then fallback.id else jsTrim s
      | _ => fallback.id := by
  cases raw <;> rfl

theorem normalizeReview_filename (raw : JsValue) (fallback : ParsedProposal) :
    (normalizeReview raw fallback).filename =
      match getField raw "filename" with
      | some (.str s) => if jsTrim s = "" then fallback.filename else jsTrim s
      | _ => fallback.filename := by
  cases raw <;> rfl

/-- The improvement entries of the payload that survive the
string-and-non-blank filter of `normalizeReview`. -/
def validImprovements (raw : JsValue) : List String :=
  trimmedStrings (getField raw "recommendedImprovements")

theorem normalizeReview_recommendedImprovements (raw : JsValue) (fallback : ParsedProposal) :
    (normalizeReview raw fallback).recommendedImprovements =
      if isObjectLike raw = false then ["Unable to parse review output."]
      else if (validImprovements raw).length > 0 then validImprovements raw
      else [if (normalizeReview raw fallback).overallVerdict = "pass"
            then "No immediate improvements recommended."
            else "Address the failed criteria with specific evidence."] := by
  cases raw <;> rfl

/-! ## Claim theorems about `normalizeReview` -/

/-- C4: for every model payload, the normalized `ReviewResult`'s
`wordCount` is the originating document's word count — computed by
whitespace-splitting the extracted text in `toParsedProposal` — and never
the payload's value. -/
theorem wordCount_from_document (raw : JsValue) (fallback : ParsedProposal)
    (parsed : ParsedFileResult) (index : Nat) :
    (normalizeReview raw fallback).wordCount = fallback.wordCount
    ∧ (normalizeReview raw (toParsedProposal parsed index)).wordCount = countWords parsed.text := by
  exact ⟨normalizeReview_wordCount raw fallback,
    normalizeReview_wordCount raw (toParsedProposal parsed index)⟩

/-- C5: the normalized `overallVerdict` is always `"pass"` or `"fail"`,
and it is `"fail"` whenever the payload's `overallVerdict` field is
anything other than the literal string `"pass"` (absent and non-string
values included). -/
theorem overallVerdict_normalization (raw : JsValue) (fallback : ParsedProposal) :
    ((normalizeReview raw fallback).overallVerdict = "pass"
      ∨ (normalizeReview raw fallback).overallVerdict = "fail")
    ∧ (getFieldStr raw "overallVerdict" ≠ some "pass" →
        (normalizeReview raw fallback).overallVerdict = "fail") := by
  have h := normalizeReview_overallVerdict raw fallback
  constructor
  · rw [h]
    cases hg : getField raw "overallVerdict" with
    | none => exact Or.inr rfl
    | some v =>
        cases v with
        | str s =>
            by_cases hs : s = "pass"
            · exact Or.inl (by simp [hs])
            · exact Or.inr (by simp [hs])
        | null => exact Or.inr rfl
        | bool b => exact Or.inr rfl
        | num n => exact Or.inr rfl
        | arr xs => exact Or.inr rfl
        | obj fields => exact Or.inr rfl
  · intro hne
    rw [h]
    cases hg : getField raw "overallVerdict" with
    | none => rfl
    | some v =>
        cases v with
        | str s =>
            have hs : s ≠ "pass" := by
              intro hcontra
              exact hne (by rw [getFieldStr, hg, hcontra])
            simp [hs]
        | null => rfl
        | bool b => rfl
        | num n => rfl
        | arr xs => rfl
        | obj fields => rfl

/-- C6: normalized `recommendedImprovements` is never empty; when the
payload yields no valid (string, non-blank after trimming) entries, it is
exactly one synthesized message, and for object payloads that message is
the fixed default conditioned on `overallVerdict`. -/
theorem recommendedImprovements_nonempty (raw : JsValue) (fallback : ParsedProposal) :
    (normalizeReview raw fallback).recommendedImprovements ≠ []
    ∧ (validImprovements raw = [] →
        ((normalizeReview raw fallback).recommendedImprovements).length = 1)
    ∧ (isObjectLike raw = true → validImprovements raw = [] →
        (normalizeReview raw fallback).recommendedImprovements =
          [if (normalizeReview raw fallback).overallVerdict = "pass"
            then "No immediate improvements recommended."
            else "Address the failed criteria with specific evidence."]) := by
  have h := normalizeReview_recommendedImprovements raw fallback
  by_cases hobj : isObjectLike raw = false
  · rw [h, if_pos hobj]
    refine ⟨by simp, fun _ => rfl, fun htrue _ => ?_⟩
    rw [hobj] at htrue
    exact absurd htrue (by simp)
  · rw [h, if_neg hobj]
    by_cases hlen : (validImprovements raw).length > 0
    · rw [if_pos hlen]
      refine ⟨?_, fun hempty => ?_, fun _ hempty => ?_⟩
      · intro hnil
        rw [hnil] at hlen
        exact absurd hlen (by simp)
      · exact absurd (by rw [hempty]; rfl : (validImprovements raw).length = 0) (by omega)
      · exact absurd (by rw [hempty]; rfl : (validImprovements raw).length = 0) (by omega)
    · rw [if_neg hlen]
      exact ⟨by simp, fun _ => rfl, fun _ _ => rfl⟩

/-- Payload whose `id` and `filename` differ from the originating
document's: the model's non-blank values win in `normalizeReview`. -/
def modelIdPayload : JsValue :=
  .obj [("id", .str "model-chosen-id"), ("filename", .str "model.pdf")]

/-- The originating document used as the normalization fallback in the
`id`/`filename` counterexample. -/
def docFallback : ParsedProposal :=
  { id := "proposal-1", filename := "a.pdf", mimetype := "application/pdf",
    text := "hello", wordCount := 1 }

/-- C9 counterexample: the normalized result's `id` and `filename` do not
match the originating document's identifier and filename when the model
returns different non-blank strings — refuting the claim that they always
match the document. -/
theorem id_matches_document_cex :
    (normalizeReview modelIdPayload docFallback).id ≠ docFallback.id
    ∧ (normalizeReview modelIdPayload docFallback).filename ≠ docFallback.filename := by
  decide

/-- The amended `id`/`filename` rule: the model's trimmed value when it is
a non-blank string, the originating document's value otherwise. -/
def stringFieldOr (raw : JsValue) (key fb : String) : String :=
  match getField raw key with
  | some (.str s) => if jsTrim s = "" then fb else jsTrim s
  | _ => fb

/-- C9 amended: the normalized `id` is the model's trimmed `id` when that
is a non-blank string and the document's identifier otherwise; `filename`
follows the same rule. -/
theorem id_filename_fallback_amended (raw : JsValue) (fallback : ParsedProposal) :
    (normalizeReview raw fallback).id = stringFieldOr raw "id" fallback.id
    ∧ (normalizeReview raw fallback).filename =
        stringFieldOr raw "filename" fallback.filename := by
  exact ⟨(normalizeReview_id raw fallback).trans rfl,
    (normalizeReview_filename raw fallback).trans rfl⟩

/-! ## C3: the JSON parsing fallback chain -/

/-- C3: `extractJson` implements the ordered fallback chain — strict parse,
repair then strict parse of the repaired string, strict parse of the
first-brace-to-last-brace substring — stopping at the first success; when
every strategy fails the original strict-parse error is propagated.
Stated as: `extractJson` coincides with `extractJsonSpec`, the chain
written from the spec, for every parser, repairer and raw text. -/
theorem parse_fallback_chain (parse : String → Except String JsValue)
    (repair : String → Except String String) (raw : String) :
    extractJson parse repair raw = extractJsonSpec parse repair raw := by
  unfold extractJson extractJsonSpec braceCandidate
  cases h1 : parse raw with
  | ok v => simp [List.find?, isOkB]
  | error e =>
      cases h2 : (repair raw).bind parse with
      | ok v => simp [List.find?, isOkB, h1]
      | error e2 =>
          by_cases hb : jsIndexOf raw '{' ≠ -1 ∧ jsLastIndexOf raw '}' ≠ -1
              ∧ jsLastIndexOf raw '}' > jsIndexOf raw '{'
          · cases h3 : parse (jsSlice raw (jsIndexOf raw '{') (jsLastIndexOf raw '}' + 1)) with
            | ok v => simp [hb, h1, h2, h3, List.find?, isOkB]
            | error e3 => simp [hb, h1, h2, h3, List.find?, isOkB]
          · simp [hb, h1, h2, List.find?, isOkB]

/-! ## C8: archive expansion -/

/-- Modelled from the spec (§4.2 Archive Expander): skip directory
entries; keep file entries whose lower-cased extension is `.pdf` or
`.docx`, mapped through the fixed extension table; silently skip every
other extension; return the basename with the entry bytes. -/
def expandSpec (entries : List ZipEntry) : List FileBuffer :=
  entries.filterMap (fun e =>
    if e.dir then none
    else if asciiToLower (extnameString e.name) = ".pdf" then
      some { filename := basenameString e.name, buffer := e.content,
             mimetype := "application/pdf" }
    else if asciiToLower (extnameString e.name) = ".docx" then
      some { filename := basenameString e.name, buffer := e.content,
             mimetype := "application/vnd.openxmlformats-officedocument.wordprocessingml.document" }
    else none)

/-- A ZIP with three supported proposals (one in a subdirectory, one with
an upper-case extension), one directory entry, and two entries with
unsupported extensions. -/
def zipExample : List ZipEntry :=
  [{ name := "proposals/a.pdf", dir := false, content := [1] },
   { name := "proposals/b.docx", dir := false, content := [2] },
   { name := "proposals/sub/", dir := true, content := [] },
   { name := "proposals/sub/c.PDF", dir := false, content := [3] },
   { name := "proposals/README.txt", dir := false, content := [4] },
   { name := "proposals/img.jpg", dir := false, content := [5] }]

/-- C8: `extractFromZip` skips directories, retains exactly the file
entries whose extension is in the fixed `.pdf`/`.docx` table, silently
skips all other extensions, and keeps basenames only; on the 3-supported
plus 2-unsupported example it yields exactly 3 entries. -/
theorem archive_expansion_filter :
    (∀ entries, extractFromZip entries = expandSpec entries)
    ∧ extractFromZip zipExample =
        [{ filename := "a.pdf", buffer := [1], mimetype := "application/pdf" },
         { filename := "b.docx", buffer := [2],
           mimetype := "application/vnd.openxmlformats-officedocument.wordprocessingml.document" },
         { filename := "c.PDF", buffer := [3], mimetype := "application/pdf" }]
    ∧ (extractFromZip zipExample).length = 3 := by
  refine ⟨fun entries => ?_, by rfl, by rfl⟩
  unfold extractFromZip expandSpec
  apply List.filterMap_congr
  intro e _
  by_cases hd : e.dir = true
  · simp [hd]
  · simp only [hd, Bool.false_eq_true, if_false, deriveMimeFromExtension]
    by_cases h1 : asciiToLower (extnameString e.name) = ".pdf"
    · simp [h1]
    · by_cases h2 : asciiToLower (extnameString e.name) = ".docx"
      · simp [h1, h2]
      · simp [h1, h2]

/-! ## Orchestration lemmas -/

theorem promiseAll_error_of_get {α : Type} (l : List (Except String α)) :
    ∀ (i : Nat) (hi : i < l.length), (∃ e, l.get ⟨i, hi⟩ = Except.error e) →
      ∃ e, promiseAll l = Except.error e := by
  induction l with
  | nil => intro i hi _; exact absurd hi (by simp)
  | cons x rest ih =>
      intro i hi hex
      cases i with
      | zero =>
          obtain ⟨e, he⟩ := hex
          simp only [List.get] at he
          exact ⟨e, by rw [he]; rfl⟩
      | succ j =>
          have hj : j < rest.length := by simpa using hi
          obtain ⟨e, he⟩ := hex
          obtain ⟨e2, he2⟩ := ih j hj ⟨e, by simpa using he⟩
          cases x with
          | error e3 => exact ⟨e3, rfl⟩
          | ok a => exact ⟨e2, by show (match promiseAll rest with
              | .ok as => Except.ok (a :: as)
              | .error e => Except.error e) = Except.error e2; rw [he2]⟩

/-! ## C1: extraction failures and the batch -/

/-- The two-document batch of the extraction-failure counterexample. -/
def cexFiles : List FileBuffer :=
  [{ filename := "a.pdf", buffer := [1], mimetype := "application/pdf" },
   { filename := "b.pdf", buffer := [1], mimetype := "application/pdf" }]

/-- Extraction oracle for the counterexample: the first document yields
text, the second document's extraction is empty. -/
def cexExtract : Nat → String := fun i => if i = 0 then "Alpha beta" else ""

/-- Completion oracle for the counterexample: every LLM call would
succeed with a well-formed payload. -/
def cexCompletion : ParsedProposal → Except String JsValue :=
  fun _ => .ok (JsValue.obj [("overallVerdict", JsValue.str "pass")])

/-- C1 counterexample: in a batch of 2 documents where exactly one has
empty extracted text (and reviewing would succeed for the other), the
outcome is the outer catch's hard failure — not 1 successful review plus
1 recorded `ReviewError` as the claim states. -/
theorem extraction_isolation_cex :
    postAfterCollect cexExtract cexCompletion cexFiles =
      ReviewOutcome.pipelineFailure "No readable text found in the uploaded file" := by
  rfl

/-- C1 amended: an extraction failure for any document is not isolated —
`toParsedProposal` runs inside the batch-wide `Promise.all` before the
per-document try/catch, so one failing extraction rejects the whole batch
into the outer catch, which reports a hard failure (HTTP 500) carrying an
extraction error message and produces no reviews and no per-document
error list. -/
theorem extraction_failure_aborts_batch (extractText : Nat → String)
    (completion : ParsedProposal → Except String JsValue)
    (files : List FileBuffer) (i : Nat) (hi : i < files.length)
    (hmax : files.length ≤ MAX_PROPOSALS)
    (hfail : ∃ e, parseProposalFile (extractText i) (files.get ⟨i, hi⟩).buffer
        (files.get ⟨i, hi⟩).filename (files.get ⟨i, hi⟩).mimetype = Except.error e) :
    ∃ msg, postAfterCollect extractText completion files =
      ReviewOutcome.pipelineFailure msg := by
  have h0 : ¬ files.length = 0 := by omega
  have hmax2 : ¬ files.length > MAX_PROPOSALS := by omega
  have hlen : i < (files.enum.map (fun p =>
      (parseProposalFile (extractText p.1) p.2.buffer p.2.filename p.2.mimetype).map
        (fun parsed => toParsedProposal parsed p.1))).length := by
    simpa [List.enum_length] using hi
  have hparse : ∃ e, parseAllFiles extractText files = Except.error e := by
    unfold parseAllFiles
    apply promiseAll_error_of_get _ i hlen
    obtain ⟨e, he⟩ := hfail
    refine ⟨e, ?_⟩
    rw [List.get_eq_getElem, List.getElem_map, List.getElem_enum]
    rw [List.get_eq_getElem] at he
    rw [he]
    rfl
  obtain ⟨e, he⟩ := hparse
  refine ⟨e, ?_⟩
  unfold postAfterCollect
  rw [if_neg h0, if_neg hmax2, he]

/-- C1 amended, witnessed on the concrete two-document batch. -/
theorem extraction_failure_aborts_batch_witness :
    ∃ msg, postAfterCollect cexExtract cexCompletion cexFiles =
      ReviewOutcome.pipelineFailure msg :=
  extraction_failure_aborts_batch cexExtract cexCompletion cexFiles 1
    (by decide) (by decide)
    ⟨"No readable text found in the uploaded file", by rfl⟩

/-! ## C2: the batch-level decision -/

/-- C2: once every per-document pipeline has settled, the batch decision
is: zero successful reviews means the whole operation is the hard 502
failure carrying all collected per-document errors; at least one success
means the 200 response carrying the successful reviews together with the
recorded errors. -/
theorem batch_decision_rule (extractText : Nat → String)
    (completion : ParsedProposal → Except String JsValue)
    (files : List FileBuffer) (parsedProposals : List ParsedProposal)
    (h0 : ¬ files.length = 0) (hmax : ¬ files.length > MAX_PROPOSALS)
    (hparse : parseAllFiles extractText files = Except.ok parsedProposals) :
    (((parsedProposals.map (reviewOne completion)).map (fun r => r.review)).filterMap id = [] →
      postAfterCollect extractText completion files =
        ReviewOutcome.allFailed
          (((parsedProposals.map (reviewOne completion)).map (fun r => r.error)).filterMap id))
    ∧ (((parsedProposals.map (reviewOne completion)).map (fun r => r.review)).filterMap id ≠ [] →
      postAfterCollect extractText completion files =
        ReviewOutcome.success
          (((parsedProposals.map (reviewOne completion)).map (fun r => r.review)).filterMap id)
          (((parsedProposals.map (reviewOne completion)).map (fun r => r.error)).filterMap id)) := by
  have hpost : postAfterCollect extractText completion files =
      aggregateSettled (parsedProposals.map (reviewOne completion)) := by
    unfold postAfterCollect
    rw [if_neg h0, if_neg hmax, hparse]
  constructor
  · intro hempty
    rw [hpost]
    simp only [aggregateSettled]
    rw [hempty]
    simp
  · intro hne
    have hlen : ¬ (((parsedProposals.map (reviewOne completion)).map
        (fun r => r.review)).filterMap id).length = 0 := by
      simpa [List.length_eq_zero] using hne
    rw [hpost]
    simp only [aggregateSettled]
    rw [if_neg hlen]

/-- Single-document batch used to witness the all-failed branch of the
batch decision. -/
def wFiles : List FileBuffer :=
  [{ filename := "a.pdf", buffer := [1], mimetype := "application/pdf" }]

/-- Extraction oracle for the batch-decision witness. -/
def wExtract : Nat → String := fun _ => "hello world"

/-- Completion oracle for the batch-decision witness: the one LLM call
fails. -/
def wCompletion : ParsedProposal → Except String JsValue := fun _ => .error "boom"

/-- The parsed proposals of the batch-decision witness. -/
def wParsed : List ParsedProposal :=
  [{ id := "proposal-1", filename := "a.pdf", mimetype := "application/pdf",
     text := "hello world", wordCount := 2 }]

/-- C2 witnessed: a one-document batch whose single review fails is the
hard failure carrying that document's error. -/
theorem batch_decision_rule_witness :
    postAfterCollect wExtract wCompletion wFiles =
      ReviewOutcome.allFailed [{ filename := "a.pdf", message := "boom" }] := by
  have h := batch_decision_rule wExtract wCompletion wFiles wParsed
    (by decide) (by decide) (by rfl)
  exact (h.1 (by rfl)).trans (by rfl)

/-! ## C7: the batch ceiling -/

/-- C7: whenever the expanded document count exceeds `MAX_PROPOSALS`
(12), the request is rejected as a hard failure with the fixed message —
and the outcome does not depend on the extraction or completion oracles,
i.e. no per-document processing influences it. -/
theorem batch_ceiling_rejects (extractText : Nat → String)
    (completion : ParsedProposal → Except String JsValue)
    (files : List FileBuffer) (h : files.length > MAX_PROPOSALS) :
    postAfterCollect extractText completion files =
      ReviewOutcome.badRequest
        ("Reduce the number of proposals. Limit is " ++ toString MAX_PROPOSALS ++ ".")
    ∧ ∀ (extractText2 : Nat → String) (completion2 : ParsedProposal → Except String JsValue),
        postAfterCollect extractText completion files =
          postAfterCollect extractText2 completion2 files := by
  have h0 : ¬ files.length = 0 := by
    intro hz
    rw [hz] at h
    exact absurd h (by decide)
  have heq : ∀ (e : Nat → String) (c : ParsedProposal → Except String JsValue),
      postAfterCollect e c files =
        ReviewOutcome.badRequest
          ("Reduce the number of proposals. Limit is " ++ toString MAX_PROPOSALS ++ ".") := by
    intro e c
    unfold postAfterCollect
    rw [if_neg h0, if_pos h]
  exact ⟨heq extractText completion,
    fun e2 c2 => (heq extractText completion).trans (heq e2 c2).symm⟩

/-- A 13-document batch. -/
def ceilingFiles : List FileBuffer :=
  List.replicate 13 { filename := "p.pdf", buffer := [0], mimetype := "application/pdf" }

/-- An arbitrary extraction oracle, never consulted by the ceiling check. -/
def anyExtract : Nat → String := fun _ => ""

/-- An arbitrary completion oracle, never consulted by the ceiling check. -/
def anyCompletion : ParsedProposal → Except String JsValue := fun _ => .error "unused"

/-- C7 witnessed: a 13-document submission is rejected immediately with
the fixed limit message. -/
theorem batch_ceiling_rejects_witness :
    ceilingFiles.length > MAX_PROPOSALS ∧
    postAfterCollect anyExtract anyCompletion ceilingFiles =
      ReviewOutcome.badRequest "Reduce the number of proposals. Limit is 12." := by
  refine ⟨by decide, ?_⟩
  exact ((batch_ceiling_rejects anyExtract anyCompletion ceilingFiles (by decide)).1).trans (by rfl)

/-! ## C10: order preservation in the fan-in -/

theorem map_some_filterMap_sublist {α : Type} (l : List (Option α)) :
    ((l.filterMap id).map some).Sublist l := by
  induction l with
  | nil => simp
  | cons x rest ih =>
      cases x with
      | none => exact List.Sublist.cons none ih
      | some a => exact List.Sublist.cons₂ (some a) ih

/-- C10: the fan-in aggregates the settled per-document results
positionally, so the reviews of the batch outcome are the in-input-order
subsequence of the settled `review` slots (every present review included),
and the errors — in either the 200 or the 502 outcome — are likewise the
in-input-order subsequence of the settled `error` slots. -/
theorem output_order_preservation (completion : ParsedProposal → Except String JsValue)
    (proposals : List ParsedProposal) :
    (∀ revs errs,
        aggregateSettled (proposals.map (reviewOne completion)) =
            ReviewOutcome.success revs errs →
          ((revs.map some).Sublist
              ((proposals.map (reviewOne completion)).map (fun r => r.review))
           ∧ (errs.map some).Sublist
              ((proposals.map (reviewOne completion)).map (fun r => r.error))
           ∧ ∀ rv, some rv ∈ (proposals.map (reviewOne completion)).map (fun r => r.review) →
              rv ∈ revs))
    ∧ (∀ errs,
        aggregateSettled (proposals.map (reviewOne completion)) =
            ReviewOutcome.allFailed errs →
          (errs.map some).Sublist
            ((proposals.map (reviewOne completion)).map (fun r => r.error))) := by
  constructor
  · intro revs errs h
    simp only [aggregateSettled] at h
    by_cases hlen : (((proposals.map (reviewOne completion)).map
        (fun r => r.review)).filterMap id).length = 0
    · rw [if_pos hlen] at h
      cases h
    · rw [if_neg hlen] at h
      injection h with h1 h2
      subst h1
      subst h2
      refine ⟨map_some_filterMap_sublist _, map_some_filterMap_sublist _, ?_⟩
      intro rv hmem
      rw [List.mem_filterMap]
      exact ⟨some rv, hmem, rfl⟩
  · intro errs h
    simp only [aggregateSettled] at h
    by_cases hlen : (((proposals.map (reviewOne completion)).map
        (fun r => r.review)).filterMap id).length = 0
    · rw [if_pos hlen] at h
      injection h with h1
      subst h1
      exact map_some_filterMap_sublist _
    · rw [if_neg hlen] at h
      cases h

/-- Payload returned by the successful completions of the order witness. -/
def orderPayload : JsValue := JsValue.obj [("overallVerdict", JsValue.str "pass")]

/-- Three documents for the order witness. -/
def orderProposals : List ParsedProposal :=
  [{ id := "proposal-1", filename := "a.pdf", mimetype := "application/pdf",
     text := "x", wordCount := 1 },
   { id := "proposal-2", filename := "b.pdf", mimetype := "application/pdf",
     text := "y", wordCount := 1 },
   { id := "proposal-3", filename := "c.pdf", mimetype := "application/pdf",
     text := "z", wordCount := 1 }]

/-- Completion oracle for the order witness: the middle document fails,
its neighbours succeed. -/
def orderCompletion : ParsedProposal → Except String JsValue :=
  fun p => if p.id = "proposal-2" then .error "boom" else .ok orderPayload

/-- C10 witnessed: with the middle of three documents failing, the two
successful reviews appear in input order within the settled review slots
and the single error in the settled error slots. -/
theorem output_order_preservation_witness :
    (([normalizeReview orderPayload (orderProposals.get ⟨0, by decide⟩),
       normalizeReview orderPayload (orderProposals.get ⟨2, by decide⟩)].map some).Sublist
        ((orderProposals.map (reviewOne orderCompletion)).map (fun r => r.review)))
    ∧ ((([⟨"b.pdf", "boom"⟩] : List ReviewError)).map some).Sublist
        ((orderProposals.map (reviewOne orderCompletion)).map (fun r => r.error)) := by
  have h := (output_order_preservation orderCompletion orderProposals).1
    [normalizeReview orderPayload (orderProposals.get ⟨0, by decide⟩),
     normalizeReview orderPayload (orderProposals.get ⟨2, by decide⟩)]
    ([⟨"b.pdf", "boom"⟩] : List ReviewError) (by rfl)
  exact ⟨h.1, h.2.1⟩

/-! ## Witnesses for the normalization claims -/

/-- A payload whose `overallVerdict` is a string other than `"pass"`. -/
def verdictPayload : JsValue := JsValue.obj [("overallVerdict", JsValue.str "maybe")]

/-- C5 witnessed: a payload with `overallVerdict = "maybe"` normalizes to
the verdict `"fail"`. -/
theorem overallVerdict_normalization_witness :
    (normalizeReview verdictPayload docFallback).overallVerdict = "fail" :=
  (overallVerdict_normalization verdictPayload docFallback).2 (by decide)

/-- C6 witnessed: an object payload with no improvement entries yields
exactly the one synthesized fail-conditioned message. -/
theorem recommendedImprovements_nonempty_witness :
    (normalizeReview (JsValue.obj []) docFallback).recommendedImprovements =
      ["Address the failed criteria with specific evidence."]
    ∧ ((normalizeReview (JsValue.obj []) docFallback).recommendedImprovements).length = 1 := by
  have h := recommendedImprovements_nonempty (JsValue.obj []) docFallback
  exact ⟨(h.2.2 (by rfl) (by rfl)).trans (by rfl), h.2.1 (by rfl)⟩

end ProposalReview
